import Mathlib

/-!
Verification of the JellRust static-site generator core.

This file gives a shallow embedding of the pure logic of the JellRust
build pipeline and dev-server loop, translated from the Rust sources:

* `jellrust-markdown/src/lib.rs`  — front-matter extraction
* `jellrust-core/src/content.rs`  — posts and filename date parsing
* `jellrust-core/src/config.rs`   — configuration and exclusion patterns
* `jellrust-core/src/site.rs`     — site assembly and URL generation
* `jellrust-server/src/lib.rs`    — watch/debounce/reload loop
* `jellrust-template/src/lib.rs`  — layout resolution chain

Rust `&str` values are modelled as `List Char`.  External collaborators
(serde_yaml, pulldown-cmark, liquid) are modelled as function parameters,
matching the specification's treatment of them as black boxes.
-/

namespace JellRust

/-- Rust strings are modelled as lists of characters. -/
abbrev Chars := List Char

/-- Convenience conversion from a Lean string literal to `Chars`. -/
def strL (s : String) : Chars := s.toList

/-- Models Rust `str::starts_with(pat)` (and, on path components,
`Path::starts_with`): the first list begins the second. -/
def leadsWith {α : Type} [DecidableEq α] : List α → List α → Bool
  | [], _ => true
  | _ :: _, [] => false
  | p :: ps, c :: cs => p = c && leadsWith ps cs

/-- Models Rust `str::find(pat)`: index of the first occurrence of `pat`,
`some 0` for the empty pattern, `none` when absent. -/
def findSub (pat : Chars) : Chars → Option Nat
  | [] => if leadsWith pat [] then some 0 else none
  | c :: rest =>
    if leadsWith pat (c :: rest) then some 0
    else (findSub pat rest).map (· + 1)

/-- Models Rust `str::contains(pat)`. -/
def containsSub (s pat : Chars) : Bool := (findSub pat s).isSome

/-- Models Rust `str::trim_start()` (whitespace from the front). -/
def trimStartL (s : Chars) : Chars := s.dropWhile Char.isWhitespace

/-- Models Rust `str::trim_end()` (whitespace from the back). -/
def trimEndL (s : Chars) : Chars := (s.reverse.dropWhile Char.isWhitespace).reverse

/-- Models Rust `str::trim()`. -/
def trimL (s : Chars) : Chars := trimEndL (trimStartL s)

/-- Per-file metadata, translated from `FrontMatter` in
`jellrust-markdown/src/lib.rs` (also re-exported by `jellrust-types`).
`custom` is the `#[serde(flatten)]` map of unrecognized keys; its yaml
values are modelled as raw strings. -/
structure FrontMatter where
  title : Option Chars
  layout : Option Chars
  date : Option Chars
  author : Option Chars
  categories : List Chars
  tags : List Chars
  permalink : Option Chars
  published : Bool
  custom : List (Chars × Chars)
deriving DecidableEq

/-- `FrontMatter::default()`: every field empty and, per
`#[serde(default = "default_true")]`, `published = true`. -/
def fmDefault : FrontMatter :=
  { title := none
    layout := none
    date := none
    author := none
    categories := []
    tags := []
    permalink := none
    published := true
    custom := [] }

/-- Front-matter extraction, translated from
`MarkdownProcessor::parse_front_matter` (`jellrust-markdown/src/lib.rs`
lines 68-91).  The serde_yaml parse of the delimited block is the external
parameter `parseYaml`; its failure (`none`) is the hard error the Rust code
propagates with `?`.  The delimiters are ASCII, so Rust's byte indices
`[3..]`, `[..end_pos]`, `[end_pos + 4..]` coincide with character indices. -/
def parseFrontMatter (parseYaml : Chars → Option FrontMatter) (content : Chars) :
    Except Unit (FrontMatter × Chars) :=
  let trimmed := trimL content
  if leadsWith (strL "---") trimmed then
    let rest := trimmed.drop 3
    match findSub (strL "\n---") rest with
    | some endPos =>
      let yamlContent := rest.take endPos
      let body := trimStartL (rest.drop (endPos + 4))
      match parseYaml yamlContent with
      | some fm => .ok (fm, body)
      | none => .error ()
    | none => .ok (fmDefault, content)
  else
    .ok (fmDefault, content)

/-- Models Rust `str::split('-')`: split at every dash, keeping empty
segments, as `"a--b".split('-')` yields `["a", "", "b"]`. -/
def splitDash : Chars → List Chars
  | [] => [[]]
  | c :: cs =>
    if c = '-' then [] :: splitDash cs
    else
      match splitDash cs with
      | s :: ss => (c :: s) :: ss
      | [] => [[c]]

/-- Models `Vec<&str>::join("-")`. -/
def joinDash (xs : List Chars) : Chars := List.intercalate ['-'] xs

/-- Models Rust `char::is_ascii_digit` / the digit check of integer
parsing: code point between '0' (48) and '9' (57). -/
def isDigitC (c : Char) : Bool := 48 ≤ c.toNat && c.toNat ≤ 57

/-- Decimal value of a digit string, most significant digit first. -/
def natOfDigits : Chars → Nat
  | [] => 0
  | c :: cs => (c.toNat - 48) * 10 ^ cs.length + natOfDigits cs

/-- Digit-run parsing shared by the models of Rust `parse::<u32>` and
`parse::<i32>`: a non-empty run of ASCII digits, nothing else. -/
def parseDigits (cs : Chars) : Option Nat :=
  if cs ≠ [] ∧ cs.all isDigitC = true then some (natOfDigits cs) else none

/-- Models Rust `str::parse::<u32>()`: optional leading '+', then digits,
value below 2^32. -/
def parseNatSeg (cs : Chars) : Option Nat :=
  match cs with
  | [] => none
  | c :: rest =>
    let body := if c = '+' then rest else cs
    (parseDigits body).bind fun n => if n < 4294967296 then some n else none

/-- Models Rust `str::parse::<i32>()`: optional sign, then digits, value
within the i32 range. -/
def parseIntSeg (cs : Chars) : Option Int :=
  match cs with
  | [] => none
  | c :: rest =>
    if c = '+' then
      (parseDigits rest).bind fun n => if n ≤ 2147483647 then some (n : Int) else none
    else if c = '-' then
      (parseDigits rest).bind fun n => if n ≤ 2147483648 then some (-(n : Int)) else none
    else
      (parseDigits cs).bind fun n => if n ≤ 2147483647 then some (n : Int) else none

/-- A calendar date at midnight UTC, modelling the `chrono::DateTime<Utc>`
values this program constructs from `Utc.with_ymd_and_hms(y, m, d, 0, 0, 0)`. -/
structure DateT where
  year : Int
  month : Nat
  day : Nat
deriving DecidableEq

/-- Proleptic Gregorian leap-year rule, as used by chrono. -/
def isLeapYear (y : Int) : Bool := (y % 4 == 0 && y % 100 != 0) || y % 400 == 0

/-- Days in a month of the proleptic Gregorian calendar. -/
def daysInMonth (y : Int) (m : Nat) : Nat :=
  match m with
  | 1 => 31
  | 2 => if isLeapYear y then 29 else 28
  | 3 => 31
  | 4 => 30
  | 5 => 31
  | 6 => 30
  | 7 => 31
  | 8 => 31
  | 9 => 30
  | 10 => 31
  | 11 => 30
  | 12 => 31
  | _ => 0

/-- Models the success condition of
`Utc.with_ymd_and_hms(y, m, d, 0, 0, 0).single()`: the triple is a real
calendar date (UTC has no ambiguous local times, so `single` succeeds
exactly on valid dates within chrono's year range; the year range check is
omitted, which is exact for the four-digit years of interest). -/
def validYmd (y : Int) (m d : Nat) : Bool :=
  1 ≤ m && m ≤ 12 && 1 ≤ d && d ≤ daysInMonth y m

/-- The segment analysis of `Post::parse_date_from_filename`: fewer than 4
dash-separated parts yield no date, otherwise the first three parts are
parsed as year/month/day and validated. -/
def parseDateParts : List Chars → Option DateT
  | p0 :: p1 :: p2 :: _ :: _ =>
    match parseIntSeg p0, parseNatSeg p1, parseNatSeg p2 with
    | some y, some m, some d => if validYmd y m d then some ⟨y, m, d⟩ else none
    | _, _, _ => none
  | _ => none

/-- Filename date parsing, translated from `Post::parse_date_from_filename`
(`jellrust-core/src/content.rs` lines 113-127): split the file name on '-',
require at least 4 parts, parse parts 0-2 as integers, and build the date
when it is a valid calendar date. -/
def parseDateFromFilename (filename : Chars) : Option DateT :=
  parseDateParts (splitDash filename)

/-- Fuel-driven worker for `replaceL`: scans left to right; at a match the
whole pattern is consumed from the input and one unit of fuel is spent, so
fuel equal to the input length always suffices. -/
def replaceFuel (pat repl : Chars) : Nat → Chars → Chars
  | 0, hay => hay
  | _ + 1, [] => []
  | fuel + 1, c :: rest =>
    if pat ≠ [] ∧ leadsWith pat (c :: rest) = true then
      repl ++ replaceFuel pat repl fuel (List.drop (pat.length - 1) rest)
    else
      c :: replaceFuel pat repl fuel rest

/-- Models Rust `str::replace(pat, repl)` for non-empty patterns: every
non-overlapping occurrence is replaced, scanning left to right.  (Rust's
empty-pattern behaviour differs, but the program only ever replaces the
literal tokens ":year", ":month", ":day" and ":title".) -/
def replaceL (pat repl hay : Chars) : Chars := replaceFuel pat repl hay.length hay

/-- A decimal digit character; the argument is always below 10 where this
is used (`n % 10` or a guarded `n < 10`). -/
def digitCharJ (n : Nat) : Char :=
  match n with
  | 0 => '0'
  | 1 => '1'
  | 2 => '2'
  | 3 => '3'
  | 4 => '4'
  | 5 => '5'
  | 6 => '6'
  | 7 => '7'
  | 8 => '8'
  | 9 => '9'
  | _ => '0'

/-- Fuel-driven decimal printing worker; `natDigits` supplies ample fuel. -/
def natDigitsGo : Nat → Nat → Chars
  | 0, _ => []
  | fuel + 1, n =>
    if n < 10 then [digitCharJ n]
    else natDigitsGo fuel (n / 10) ++ [digitCharJ (n % 10)]

/-- The decimal digits of a natural number, most significant first. -/
def natDigits (n : Nat) : Chars := natDigitsGo (n + 1) n

/-- Zero-pad a digit string on the left to the given width. -/
def padLeftZ (w : Nat) (s : Chars) : Chars := List.replicate (w - s.length) '0' ++ s

/-- Models chrono's `%m` / `%d` formatting: zero-padded to 2 digits. -/
def pad2 (n : Nat) : Chars := padLeftZ 2 (natDigits n)

/-- Zero-padding to 4 digits, the `%Y` width. -/
def pad4 (n : Nat) : Chars := padLeftZ 4 (natDigits n)

/-- Models chrono's `%Y` formatting of the post date's year: zero-padded to
at least 4 digits, with a sign for the negative years this program never
produces from filenames. -/
def formatYear (y : Int) : Chars :=
  if y < 0 then '-' :: pad4 y.natAbs else pad4 y.toNat

/-- Index of the last occurrence of a character. -/
def lastIdxOf (c : Char) : Chars → Option Nat
  | [] => none
  | x :: xs =>
    match lastIdxOf c xs with
    | some i => some (i + 1)
    | none => if x = c then some 0 else none

/-- Models Rust `Path::file_stem` on a bare file name: the portion before
the last '.', or the whole name when there is no dot or the name starts
with its only dot. -/
def fileStem (name : Chars) : Option Chars :=
  if name = [] then none
  else
    match lastIdxOf '.' name with
    | some i => if i = 0 then some name else some (name.take i)
    | none => some name

/-- Models Rust `Path::extension` on a bare file name: the portion after
the last '.', absent when there is no dot or the name starts with its only
dot. -/
def fileExtension (name : Chars) : Option Chars :=
  match lastIdxOf '.' name with
  | some i => if i = 0 then none else some (name.drop (i + 1))
  | none => none

/-- Site configuration, translated from `Config` in
`jellrust-core/src/config.rs`.  The source field `include` is named
`includes` here (`include` is a Lean keyword); `custom` is the flattened
map of unrecognized keys with yaml values modelled as raw strings. -/
structure Config where
  title : Chars
  description : Chars
  url : Chars
  baseurl : Chars
  markdown : Chars
  permalink : Chars
  paginate : Nat
  paginatePath : Chars
  exclude : List Chars
  includes : List Chars
  plugins : List Chars
  custom : List (Chars × Chars)
deriving DecidableEq

/-- `default_exclude()` from `jellrust-core/src/config.rs` lines 78-88. -/
def defaultExclude : List Chars :=
  [strL "Gemfile", strL "Gemfile.lock", strL "node_modules", strL "vendor",
    strL ".git", strL ".gitignore", strL "_site"]

/-- `Config::default()` from `jellrust-core/src/config.rs` lines 90-107. -/
def configDefault : Config :=
  { title := strL "My Site"
    description := []
    url := []
    baseurl := []
    markdown := strL "pulldown-cmark"
    permalink := strL "/:year/:month/:day/:title/"
    paginate := 10
    paginatePath := strL "/page:num/"
    exclude := defaultExclude
    includes := []
    plugins := []
    custom := [] }

/-- Exclusion check, translated from `Config::is_excluded`
(`jellrust-core/src/config.rs` lines 130-148): include patterns are checked
first and win; then exclude patterns; both match as substrings of the
path's string form. -/
def isExcluded (cfg : Config) (pathStr : Chars) : Bool :=
  if cfg.includes.any (fun pat => containsSub pathStr pat) then false
  else cfg.exclude.any fun pat => containsSub pathStr pat

/-- The token-substitution part of `SiteBuilder::generate_post_url`
(`jellrust-core/src/site.rs` lines 213-230): substitute `:year`, `:month`,
`:day` from the formatted date into the configured permalink pattern, then,
when the file stem exists, substitute `:title` with the stem's
dash-separated segments after the first three, rejoined with dashes. -/
def postUrlFromPattern (cfg : Config) (date : DateT) (stem : Option Chars) : Chars :=
  match stem with
  | some s =>
    replaceL (strL ":title") (joinDash ((splitDash s).drop 3))
      (replaceL (strL ":day") (pad2 date.day)
        (replaceL (strL ":month") (pad2 date.month)
          (replaceL (strL ":year") (formatYear date.year) cfg.permalink)))
  | none =>
    replaceL (strL ":day") (pad2 date.day)
      (replaceL (strL ":month") (pad2 date.month)
        (replaceL (strL ":year") (formatYear date.year) cfg.permalink))

/-- Post URL generation, translated from `SiteBuilder::generate_post_url`
(`jellrust-core/src/site.rs` lines 208-231): an explicit front-matter
permalink is returned verbatim, otherwise the pattern is instantiated. -/
def generatePostUrl (cfg : Config) (fm : FrontMatter) (date : DateT)
    (stem : Option Chars) : Chars :=
  match fm.permalink with
  | some p => p
  | none => postUrlFromPattern cfg date stem

/-- Read-and-clear reload poll, translated from `reload_status`
(`jellrust-server/src/lib.rs` lines 299-310).  The handler holds the write
lock for the whole read-modify step, so one invocation is modelled as one
atomic function from the flag value to the response body and the new flag
value. -/
def reloadStatus (flag : Bool) : Chars × Bool :=
  if flag then (strL "reload", false) else (strL "ok", flag)

/-- The kinds of `notify::Event`; the payloads carried by `Create`,
`Modify` and `Remove` are never inspected by this program. -/
inductive EventKind
  | any
  | access
  | create
  | modify
  | remove
  | other
deriving DecidableEq

/-- A canonical file-system path, as a list of components (Rust
`Path::starts_with` compares whole components). -/
abbrev FsPath := List Chars

/-- A file-system event as delivered to the watcher callback. -/
structure FsEvent where
  kind : EventKind
  paths : List FsPath

/-- Rebuild filter, translated from `should_trigger_rebuild`
(`jellrust-server/src/lib.rs` lines 228-252).  `canon` is the external
`canonicalize_path` (filesystem-dependent, falling back to the input);
`destination` is the already-canonicalized destination directory computed in
`setup_watcher` line 147.  An event is discarded when any of its paths lies
under the destination; otherwise only modify/create/remove events pass. -/
def shouldTriggerRebuild (canon : FsPath → FsPath) (event : FsEvent)
    (destination : FsPath) : Bool :=
  let isDestinationEvent := event.paths.any fun path => leadsWith destination (canon path)
  if isDestinationEvent then false
  else
    match event.kind with
    | .modify => true
    | .create => true
    | .remove => true
    | _ => false

/-- The messages the watcher callback (`setup_watcher` lines 151-157) sends
on the file-change channel for one event: `tx.send(())` happens exactly when
`should_trigger_rebuild` passes, and the debounce state machine only
advances on received messages. -/
def watcherCallbackSends (canon : FsPath → FsPath) (destination : FsPath)
    (event : FsEvent) : List Unit :=
  if shouldTriggerRebuild canon event destination then [()] else []

/-- A post, translated from `Post` in `jellrust-core/src/content.rs`;
`name` is the file name within its posts/drafts directory (the only part
of `path` the post pipeline inspects). -/
structure Post where
  name : Chars
  url : Chars
  date : DateT
  frontMatter : FrontMatter
  content : Chars
  html : Chars
  excerpt : Chars
deriving DecidableEq

/-- Excerpt extraction, translated from `SiteBuilder::extract_excerpt`
(`jellrust-core/src/site.rs` lines 254-264): the first `<p>`...`</p>`
body, else the first 200 characters followed by "...". -/
def extractExcerpt (html : Chars) : Chars :=
  match findSub (strL "<p>") html with
  | some start =>
    match findSub (strL "</p>") (html.drop start) with
    | some endP => (html.drop (start + 3)).take (endP - 3)
    | none => html.take 200 ++ strL "..."
  | none => html.take 200 ++ strL "..."

/-- Chronological order on dates, as `chrono::DateTime::cmp` restricted to
the midnight dates this pipeline constructs. -/
def DateT.le (a b : DateT) : Prop :=
  a.year < b.year ∨
    (a.year = b.year ∧ (a.month < b.month ∨ (a.month = b.month ∧ a.day ≤ b.day)))

instance : DecidableRel DateT.le := fun a b =>
  inferInstanceAs (Decidable (a.year < b.year ∨
    (a.year = b.year ∧ (a.month < b.month ∨ (a.month = b.month ∧ a.day ≤ b.day)))))

/-- The order imposed by `site.posts.sort_by(|a, b| b.date.cmp(&a.date))`
(`jellrust-core/src/site.rs` line 66): `a` may precede `b` exactly when
`b.date <= a.date`, i.e. dates descending. -/
def postsGe (a b : Post) : Prop := DateT.le b.date a.date

instance : DecidableRel postsGe := fun a b =>
  inferInstanceAs (Decidable (DateT.le b.date a.date))

instance : IsTotal Post postsGe :=
  ⟨fun a b => by unfold postsGe DateT.le; omega⟩

instance : IsTrans Post postsGe :=
  ⟨fun a b c hab hbc => by unfold postsGe DateT.le at hab hbc ⊢; omega⟩

/-- Models the Rust stable `sort_by` with the descending-date comparator:
a stable sort with respect to a total preorder is a unique function, here
computed by stable insertion sort. -/
def sortByDateDesc (posts : List Post) : List Post := List.insertionSort postsGe posts

/-- A regular file of a posts or drafts directory: its file name and its
text content. -/
structure FileEntry where
  name : Chars
  content : Chars

/-- The extension filter of `process_posts` (`jellrust-core/src/site.rs`
lines 97-100): only `.md` / `.markdown` files are posts. -/
def isMarkdownName (name : Chars) : Bool :=
  match fileExtension name with
  | some e => e = strL "md" || e = strL "markdown"
  | none => false

/-- Building one post, translated from `process_posts`
(`jellrust-core/src/site.rs` lines 113-131): `Post::new` dates the post
`now`, the filename date overrides it when parseable, the URL comes from
the permalink pattern, the body is rendered (by the external `render`)
and the excerpt is extracted from the rendered HTML. -/
def makePost (render : Chars → Chars) (now : DateT) (cfg : Config)
    (name : Chars) (fm : FrontMatter) (body : Chars) : Post :=
  let date := (parseDateFromFilename name).getD now
  let html := render body
  { name := name
    url := generatePostUrl cfg fm date (fileStem name)
    date := date
    frontMatter := fm
    content := body
    html := html
    excerpt := extractExcerpt html }

/-- Post collection, translated from `SiteBuilder::process_posts`
(`jellrust-core/src/site.rs` lines 86-135): per markdown file, extract
front matter (a parse failure aborts the whole pass), drop the post when
`published` is false, and otherwise build the post. -/
def processPosts (render : Chars → Chars) (parseYaml : Chars → Option FrontMatter)
    (now : DateT) (cfg : Config) : List FileEntry → Except Unit (List Post)
  | [] => .ok []
  | f :: rest =>
    if isMarkdownName f.name then
      match parseFrontMatter parseYaml f.content with
      | .error e => .error e
      | .ok (fm, body) =>
        if fm.published then
          (processPosts render parseYaml now cfg rest).map
            (fun posts => makePost render now cfg f.name fm body :: posts)
        else processPosts render parseYaml now cfg rest
    else processPosts render parseYaml now cfg rest

/-- The posts phase of `SiteBuilder::build` (`jellrust-core/src/site.rs`
lines 46-66): collect the posts directory, append the drafts directory
when drafts are enabled, then sort by date descending.  Nothing after
line 66 modifies `site.posts` (rendering only reads it), so this is the
assembled site's post list.  A missing directory is the empty file list. -/
def siteBuildPosts (render : Chars → Chars) (parseYaml : Chars → Option FrontMatter)
    (now : DateT) (cfg : Config) (postFiles draftFiles : List FileEntry)
    (includeDrafts : Bool) : Except Unit (List Post) := do
  let posts ← processPosts render parseYaml now cfg postFiles
  let all ←
    if includeDrafts then do
      let drafts ← processPosts render parseYaml now cfg draftFiles
      pure (posts ++ drafts)
    else pure posts
  pure (sortByDateDesc all)

/-- Parent-layout extraction, translated from
`TemplateEngine::extract_parent_layout` (`jellrust-template/src/lib.rs`
lines 154-170).  `parseLayoutField` models the external serde_yaml parse
of the delimited block followed by `.get("layout")` and `as_str`. -/
def extractParentLayout (parseLayoutField : Chars → Option Chars)
    (layoutContent : Chars) : Option Chars :=
  if leadsWith (strL "---") (trimL layoutContent) then
    match findSub (strL "\n---") ((trimL layoutContent).drop 3) with
    | some endPos => parseLayoutField (((trimL layoutContent).drop 3).take endPos)
    | none => none
  else none

/-- Template-body extraction, translated from
`TemplateEngine::extract_template_content` (`jellrust-template/src/lib.rs`
lines 173-190): strip a well-delimited front-matter block, otherwise
return the content unchanged. -/
def extractTemplateContent (layoutContent : Chars) : Chars :=
  if leadsWith (strL "---") (trimL layoutContent) then
    match findSub (strL "\n---") ((trimL layoutContent).drop 3) with
    | some endPos => trimStartL (((trimL layoutContent).drop 3).drop (endPos + 4))
    | none => layoutContent
  else layoutContent

/-- Layout resolution, translated from `TemplateEngine::render_with_layout`
(`jellrust-template/src/lib.rs` lines 110-151), with an explicit fuel
parameter bounding the recursion depth: the Rust function recurses with no
depth bound and no visited set, so divergence of the source corresponds to
this model returning `none` (fuel exhausted) at EVERY fuel value.
`layouts` maps a layout name to the content of `_layouts/<name>.html`
(a missing file returns the content unchanged, lines 121-125); `renderT` is
the external liquid parse-and-render of a template body against the
globals, whose only per-iteration variable is the injected `content`
(render errors, which would abort, are orthogonal to the recursion
structure and the cycle scenario assumes rendering succeeds). -/
def renderWithLayout (layouts : List (Chars × Chars))
    (parseLayoutField : Chars → Option Chars) (renderT : Chars → Chars → Chars) :
    Nat → Chars → Chars → Option Chars
  | 0, _, _ => none
  | fuel + 1, content, layoutName =>
    match layouts.lookup layoutName with
    | none => some content
    | some layoutContent =>
      let output := renderT (extractTemplateContent layoutContent) content
      match extractParentLayout parseLayoutField layoutContent with
      | some parentName =>
        renderWithLayout layouts parseLayoutField renderT fuel output parentName
      | none => some output

/-- Layout file `_layouts/a.html` of the cycle scenario: its front matter
names `b` as parent. -/
def layoutA : Chars := strL "---\nlayout: b\n---\nBODYA"

/-- Layout file `_layouts/b.html` of the cycle scenario: its front matter
names `a` as parent. -/
def layoutB : Chars := strL "---\nlayout: a\n---\nBODYB"

/-- The `_layouts` directory of the cycle scenario. -/
def cycleLayouts : List (Chars × Chars) := [(strL "a", layoutA), (strL "b", layoutB)]

/-- serde_yaml's `layout` field for the two front-matter blocks of the
cycle scenario. -/
def cycleParse (yaml : Chars) : Option Chars :=
  if yaml = strL "\nlayout: b" then some (strL "b")
  else if yaml = strL "\nlayout: a" then some (strL "a")
  else none

/-- The state captured when the dev server spawns its file-change handler:
`spawn_file_change_handler` (`jellrust-server/src/lib.rs` lines 101-115)
clones `source`, `destination`, `config` and `include_drafts` out of the
`DevServer`, which received them once from `serve.rs` at startup. -/
structure DevServerState where
  source : Chars
  destination : Chars
  config : Config
  includeDrafts : Bool
deriving DecidableEq

/-- Translated from `rebuild_site` (`jellrust-server/src/lib.rs` lines
283-292): the rebuild constructs `SiteBuilder::new(source, destination,
config.clone())` from the captured config.  `diskConfig` stands for the
`Config` that `Config::load` would produce from the config file on disk at
this moment; no call in the rebuild path reads it.  Returns the config the
`SiteBuilder` will build with. -/
def rebuildSiteConfig (captured : Config) (diskConfig : Config) : Config :=
  captured

/-- One debounce-loop cycle of `handle_file_changes` (lines 182-196) after
the quiet window expires: `trigger_reload` sets the shared flag to `true`,
then the site is rebuilt with the captured config.  Returns the flag value
written and the config used for the rebuild. -/
def handleFileChangesCycle (st : DevServerState) (diskConfig : Config) : Bool × Config :=
  (true, rebuildSiteConfig st.config diskConfig)

/-- The configs used by a whole run of rebuild cycles; `disks` lists, per
quiet-window expiry, the config that was on disk at that moment. -/
def devServerRunConfigs (st : DevServerState) (disks : List Config) : List Config :=
  disks.map fun disk => (handleFileChangesCycle st disk).2

end JellRust

namespace JellRust

/-- Unfolding equation for `splitDash` on a non-empty string. -/
theorem splitDash_cons (c : Char) (cs : Chars) :
    splitDash (c :: cs) =
      if c = '-' then [] :: splitDash cs
      else
        match splitDash cs with
        | s :: ss => (c :: s) :: ss
        | [] => [[c]] := rfl

/-- `splitDash` always yields at least one segment. -/
theorem splitDash_ne_nil (s : Chars) : splitDash s ≠ [] := by
  induction s with
  | nil => simp [splitDash]
  | cons c cs ih =>
    unfold splitDash
    rcases h : splitDash cs with _ | ⟨t, ts⟩
    · exact absurd h ih
    · by_cases hc : c = '-' <;> simp [hc, h]

/-- Splitting a string whose first dash sits right after a dash-free
prefix peels off that prefix as the first segment. -/
theorem splitDash_append (a b : Chars) (h : '-' ∉ a) :
    splitDash (a ++ '-' :: b) = a :: splitDash b := by
  induction a with
  | nil => simp [splitDash]
  | cons c cs ih =>
    have hc : c ≠ '-' := fun hcc => h (hcc ▸ List.mem_cons_self c cs)
    have hcs : '-' ∉ cs := fun hm => h (List.mem_cons_of_mem c hm)
    rw [List.cons_append, splitDash_cons, if_neg hc, ih hcs]

/-- A digit string's value is bounded by the power of ten of its length. -/
theorem natOfDigits_lt (cs : Chars) (h : cs.all isDigitC = true) :
    natOfDigits cs < 10 ^ cs.length := by
  induction cs with
  | nil => simp [natOfDigits]
  | cons c cs ih =>
    rw [List.all_cons, Bool.and_eq_true] at h
    have h9 : c.toNat - 48 ≤ 9 := by
      have := h.1
      simp only [isDigitC, Bool.and_eq_true, decide_eq_true_eq] at this
      omega
    have hrec := ih h.2
    have hpos : 0 < 10 ^ cs.length := Nat.pos_pow_of_pos _ (by omega)
    calc natOfDigits (c :: cs) = (c.toNat - 48) * 10 ^ cs.length + natOfDigits cs := rfl
      _ ≤ 9 * 10 ^ cs.length + natOfDigits cs := by
          exact Nat.add_le_add_right (Nat.mul_le_mul_right _ h9) _
      _ < 9 * 10 ^ cs.length + 10 ^ cs.length := by omega
      _ = 10 ^ (c :: cs).length := by
          rw [List.length_cons, pow_succ]
          ring

/-- A digit character is not a dash. -/
theorem ne_dash_of_digit {c : Char} (h : isDigitC c = true) : c ≠ '-' := by
  intro he
  subst he
  exact absurd h (by decide)

/-- A digit character is not a plus sign. -/
theorem ne_plus_of_digit {c : Char} (h : isDigitC c = true) : c ≠ '+' := by
  intro he
  subst he
  exact absurd h (by decide)

/-- `parseDigits` succeeds on non-empty all-digit strings. -/
theorem parseDigits_digits (cs : Chars) (h1 : cs ≠ []) (h2 : cs.all isDigitC = true) :
    parseDigits cs = some (natOfDigits cs) := by
  simp [parseDigits, h1, h2]

/-- Unfolding equation for `parseNatSeg` on a non-empty string. -/
theorem parseNatSeg_cons (c : Char) (rest : Chars) :
    parseNatSeg (c :: rest) =
      (parseDigits (if c = '+' then rest else c :: rest)).bind
        (fun n => if n < 4294967296 then some n else none) := rfl

/-- Unfolding equation for `parseIntSeg` on a non-empty string. -/
theorem parseIntSeg_cons (c : Char) (rest : Chars) :
    parseIntSeg (c :: rest) =
      if c = '+' then
        (parseDigits rest).bind fun n => if n ≤ 2147483647 then some (n : Int) else none
      else if c = '-' then
        (parseDigits rest).bind fun n => if n ≤ 2147483648 then some (-(n : Int)) else none
      else
        (parseDigits (c :: rest)).bind fun n => if n ≤ 2147483647 then some (n : Int) else none :=
  rfl

/-- `parseNatSeg` recovers the value of a non-empty all-digit string
below 2^32. -/
theorem parseNatSeg_digits (cs : Chars) (h1 : cs ≠ []) (h2 : cs.all isDigitC = true)
    (h3 : natOfDigits cs < 4294967296) : parseNatSeg cs = some (natOfDigits cs) := by
  rcases cs with _ | ⟨c, rest⟩
  · exact absurd rfl h1
  · have hd : isDigitC c = true := by
      rw [List.all_cons, Bool.and_eq_true] at h2
      exact h2.1
    rw [parseNatSeg_cons, if_neg (ne_plus_of_digit hd), parseDigits_digits _ h1 h2]
    simp [h3]

/-- `parseIntSeg` recovers the value of a non-empty all-digit string
within the i32 range. -/
theorem parseIntSeg_digits (cs : Chars) (h1 : cs ≠ []) (h2 : cs.all isDigitC = true)
    (h3 : natOfDigits cs ≤ 2147483647) : parseIntSeg cs = some (natOfDigits cs : Int) := by
  rcases cs with _ | ⟨c, rest⟩
  · exact absurd rfl h1
  · have hd : isDigitC c = true := by
      rw [List.all_cons, Bool.and_eq_true] at h2
      exact h2.1
    rw [parseIntSeg_cons, if_neg (ne_plus_of_digit hd), if_neg (ne_dash_of_digit hd),
      parseDigits_digits _ h1 h2]
    simp [h3]

/-- Unfolding equation for `parseDateParts` with at least four segments. -/
theorem parseDateParts_cons (p0 p1 p2 p3 : Chars) (tl : List Chars) :
    parseDateParts (p0 :: p1 :: p2 :: p3 :: tl) =
      match parseIntSeg p0, parseNatSeg p1, parseNatSeg p2 with
      | some y, some m, some d => if validYmd y m d then some ⟨y, m, d⟩ else none
      | _, _, _ => none := rfl

/-- C3: for every input text that either has no opening front-matter
delimiter, or has an opening delimiter but no closing delimiter,
extraction succeeds and returns default metadata with the body equal to
the original input text. -/
theorem claim_C3 (parseYaml : Chars → Option FrontMatter) (content : Chars)
    (h : leadsWith (strL "---") (trimL content) = false ∨
      findSub (strL "\n---") ((trimL content).drop 3) = none) :
    parseFrontMatter parseYaml content = .ok (fmDefault, content) := by
  unfold parseFrontMatter
  rcases h with h | h
  · simp [h]
  · rcases hb : leadsWith (strL "---") (trimL content) with _ | _
    · simp [hb]
    · simp [hb, h]

/-- Witness for C3 at a concrete input with an opening delimiter but no
closing delimiter. -/
theorem claim_C3_witness :
    (findSub (strL "\n---") ((trimL (strL "---\ntitle: x\nbody")).drop 3) = none) ∧
    parseFrontMatter (fun _ => none) (strL "---\ntitle: x\nbody") =
      .ok (fmDefault, strL "---\ntitle: x\nbody") :=
  ⟨by decide, claim_C3 (fun _ => none) (strL "---\ntitle: x\nbody") (Or.inr (by decide))⟩

/-- C6: for every post filename of the valid form YYYY-MM-DD-title.md,
date parsing recovers exactly that year, month and day; for every
filename with fewer than 4 dash-separated segments, date parsing yields
no date. -/
theorem claim_C6 :
    (∀ (Y M D rest : Chars),
      Y.length = 4 → M.length = 2 → D.length = 2 →
      Y.all isDigitC = true → M.all isDigitC = true → D.all isDigitC = true →
      validYmd (natOfDigits Y) (natOfDigits M) (natOfDigits D) = true →
      parseDateFromFilename (Y ++ '-' :: (M ++ '-' :: (D ++ '-' :: rest))) =
        some ⟨(natOfDigits Y : Int), natOfDigits M, natOfDigits D⟩) ∧
    (∀ name : Chars, (splitDash name).length < 4 → parseDateFromFilename name = none) := by
  constructor
  · intro Y M D rest hY4 hM2 hD2 hYd hMd hDd hvalid
    have hYnd : '-' ∉ Y := fun hm =>
      absurd (List.all_eq_true.mp hYd _ hm) (by decide)
    have hMnd : '-' ∉ M := fun hm =>
      absurd (List.all_eq_true.mp hMd _ hm) (by decide)
    have hDnd : '-' ∉ D := fun hm =>
      absurd (List.all_eq_true.mp hDd _ hm) (by decide)
    have hsplit : splitDash (Y ++ '-' :: (M ++ '-' :: (D ++ '-' :: rest))) =
        Y :: (M :: (D :: splitDash rest)) := by
      rw [splitDash_append _ _ hYnd, splitDash_append _ _ hMnd, splitDash_append _ _ hDnd]
    obtain ⟨r, rs, hr⟩ := List.exists_cons_of_ne_nil (splitDash_ne_nil rest)
    have hYv : natOfDigits Y ≤ 2147483647 := by
      have := natOfDigits_lt Y hYd
      rw [hY4] at this
      omega
    have hMv : natOfDigits M < 4294967296 := by
      have := natOfDigits_lt M hMd
      rw [hM2] at this
      omega
    have hDv : natOfDigits D < 4294967296 := by
      have := natOfDigits_lt D hDd
      rw [hD2] at this
      omega
    have hYne : Y ≠ [] := by intro h; rw [h] at hY4; simp at hY4
    have hMne : M ≠ [] := by intro h; rw [h] at hM2; simp at hM2
    have hDne : D ≠ [] := by intro h; rw [h] at hD2; simp at hD2
    rw [parseDateFromFilename, hsplit, hr, parseDateParts_cons,
      parseIntSeg_digits Y hYne hYd hYv, parseNatSeg_digits M hMne hMd hMv,
      parseNatSeg_digits D hDne hDd hDv]
    simp [hvalid]
  · intro name hlen
    rw [parseDateFromFilename]
    rcases hsp : splitDash name with _ | ⟨a, _ | ⟨b, _ | ⟨c, _ | ⟨d, tl⟩⟩⟩⟩
    · rfl
    · rfl
    · rfl
    · rfl
    · rw [hsp] at hlen
      simp at hlen
      omega

/-- Witness for C6: the repository's own test filename
`2024-01-15-test-post.md` parses to 2024-01-15, and `hello.md` (two
dash-free segments... in fact a single segment) yields no date. -/
theorem claim_C6_witness :
    parseDateFromFilename (strL "2024-01-15-test-post.md") = some ⟨2024, 1, 15⟩ ∧
    parseDateFromFilename (strL "hello.md") = none := by
  constructor
  · have h := claim_C6.1 (strL "2024") (strL "01") (strL "15") (strL "test-post.md")
      (by decide) (by decide) (by decide) (by decide) (by decide) (by decide) (by decide)
    rw [show strL "2024-01-15-test-post.md" =
      strL "2024" ++ '-' :: (strL "01" ++ '-' :: (strL "15" ++ '-' :: strL "test-post.md"))
      from by decide]
    rw [h]
    decide
  · exact claim_C6.2 (strL "hello.md") (by decide)

/-- `replaceFuel` on the empty string. -/
theorem replaceFuel_nil (pat repl : Chars) (fuel : Nat) :
    replaceFuel pat repl fuel [] = [] := by
  cases fuel <;> rfl

/-- Unfolding equation for `replaceFuel` with fuel and input available. -/
theorem replaceFuel_cons (pat repl : Chars) (fuel : Nat) (c : Char) (rest : Chars) :
    replaceFuel pat repl (fuel + 1) (c :: rest) =
      if pat ≠ [] ∧ leadsWith pat (c :: rest) = true then
        repl ++ replaceFuel pat repl fuel (List.drop (pat.length - 1) rest)
      else c :: replaceFuel pat repl fuel rest := rfl

/-- `replaceFuel` ignores the exact fuel once it covers the input length. -/
theorem replaceFuel_fuel_irrel (pat repl : Chars) :
    ∀ (f g : Nat) (hay : Chars), hay.length ≤ f → hay.length ≤ g →
      replaceFuel pat repl f hay = replaceFuel pat repl g hay := by
  intro f
  induction f with
  | zero =>
    intro g hay hf _
    have he : hay = [] := List.eq_nil_of_length_eq_zero (Nat.le_zero.mp hf)
    subst he
    rw [replaceFuel_nil, replaceFuel_nil]
  | succ f ih =>
    intro g hay hf hg
    rcases hay with _ | ⟨c, rest⟩
    · rw [replaceFuel_nil, replaceFuel_nil]
    · rcases g with _ | g
      · simp at hg
      · rw [List.length_cons] at hf hg
        rw [replaceFuel_cons, replaceFuel_cons]
        by_cases hc : pat ≠ [] ∧ leadsWith pat (c :: rest) = true
        · rw [if_pos hc, if_pos hc]
          have h1 : (List.drop (pat.length - 1) rest).length ≤ f := by
            rw [List.length_drop]
            omega
          have h2 : (List.drop (pat.length - 1) rest).length ≤ g := by
            rw [List.length_drop]
            omega
          rw [ih g _ h1 h2]
        · rw [if_neg hc, if_neg hc, ih g rest (by omega) (by omega)]

/-- Unfolding equation for `leadsWith` on two non-empty lists. -/
theorem leadsWith_cons {α : Type} [DecidableEq α] (p c : α) (ps cs : List α) :
    leadsWith (p :: ps) (c :: cs) = (decide (p = c) && leadsWith ps cs) := rfl

/-- `leadsWith` is false when the heads differ. -/
theorem leadsWith_cons_ne {α : Type} [DecidableEq α] (p c : α) (ps cs : List α)
    (h : p ≠ c) : leadsWith (p :: ps) (c :: cs) = false := by
  rw [leadsWith_cons]
  simp [h]

/-- Every list is a prefix of itself extended. -/
theorem leadsWith_append_self {α : Type} [DecidableEq α] (xs ys : List α) :
    leadsWith xs (xs ++ ys) = true := by
  induction xs with
  | nil => rfl
  | cons x xs ih =>
    rw [List.cons_append, leadsWith_cons]
    simp [ih]

/-- Replacement skips a character different from the pattern's head. -/
theorem replaceL_cons_of_ne (p : Char) (ps repl : Chars) (c : Char) (rest : Chars)
    (h : c ≠ p) :
    replaceL (p :: ps) repl (c :: rest) = c :: replaceL (p :: ps) repl rest := by
  unfold replaceL
  rw [List.length_cons, replaceFuel_cons, if_neg (by
    rintro ⟨-, hl⟩
    rw [leadsWith_cons_ne _ _ _ _ (fun he => h he.symm)] at hl
    exact Bool.false_ne_true hl)]

/-- Replacement walks over a block containing no pattern-head character. -/
theorem replaceL_append_of_ne (p : Char) (ps repl A T : Chars)
    (hA : ∀ c ∈ A, c ≠ p) :
    replaceL (p :: ps) repl (A ++ T) = A ++ replaceL (p :: ps) repl T := by
  induction A with
  | nil => simp
  | cons c cs ih =>
    rw [List.cons_append, replaceL_cons_of_ne _ _ _ _ _ (hA c (List.mem_cons_self c cs)),
      ih (fun x hx => hA x (List.mem_cons_of_mem c hx)), List.cons_append]

/-- Replacement fires on a leading occurrence of the pattern. -/
theorem replaceL_append_self (p : Char) (ps repl T : Chars) :
    replaceL (p :: ps) repl ((p :: ps) ++ T) = repl ++ replaceL (p :: ps) repl T := by
  unfold replaceL
  rw [List.cons_append, List.length_cons, replaceFuel_cons, if_pos
    ⟨List.cons_ne_nil p ps, by
      rw [show p :: (ps ++ T) = (p :: ps) ++ T from rfl]
      exact leadsWith_append_self _ _⟩]
  have hlen : (p :: ps).length - 1 = ps.length := by simp
  rw [hlen, List.drop_left]
  rw [replaceFuel_fuel_irrel _ _ _ T.length T (by simp) (le_refl _)]

/-- Unfolding equation for `findSub` on a non-empty string. -/
theorem findSub_cons (pat : Chars) (c : Char) (rest : Chars) :
    findSub pat (c :: rest) =
      if leadsWith pat (c :: rest) then some 0
      else (findSub pat rest).map (· + 1) := rfl

/-- Replacement leaves a string without the pattern untouched. -/
theorem replaceL_not_contains (pat repl hay : Chars) (h : containsSub hay pat = false) :
    replaceL pat repl hay = hay := by
  induction hay with
  | nil => rfl
  | cons c rest ih =>
    unfold containsSub at h
    rw [findSub_cons] at h
    by_cases hl : leadsWith pat (c :: rest) = true
    · rw [if_pos hl] at h
      simp at h
    · rw [if_neg hl] at h
      have hrest : containsSub rest pat = false := by
        unfold containsSub
        rcases hf : findSub pat rest with _ | i
        · rfl
        · rw [hf] at h
          simp at h
      unfold replaceL
      rw [List.length_cons, replaceFuel_cons, if_neg (fun hcon => hl hcon.2)]
      rw [show replaceFuel pat repl rest.length rest = replaceL pat repl rest from rfl,
        ih hrest]

/-- One full replacement step: cross a pattern-head-free block, replace the
occurrence, and leave the pattern-free remainder untouched. -/
theorem replaceL_once (p : Char) (ps repl A B : Chars) (hA : ∀ c ∈ A, c ≠ p)
    (hB : containsSub B (p :: ps) = false) :
    replaceL (p :: ps) repl (A ++ ((p :: ps) ++ B)) = A ++ (repl ++ B) := by
  rw [replaceL_append_of_ne _ _ _ _ _ hA, replaceL_append_self,
    replaceL_not_contains _ _ _ hB]

/-- `digitCharJ` always yields a digit character. -/
theorem digitCharJ_digit (n : Nat) : isDigitC (digitCharJ n) = true := by
  rcases n with _ | _ | _ | _ | _ | _ | _ | _ | _ | _ | n <;> rfl

/-- The decimal printer emits only digit characters. -/
theorem natDigitsGo_all (fuel : Nat) : ∀ n, (natDigitsGo fuel n).all isDigitC = true := by
  induction fuel with
  | zero => intro n; rfl
  | succ f ih =>
    intro n
    unfold natDigitsGo
    by_cases h : n < 10
    · simp [h, digitCharJ_digit]
    · simp [h, List.all_append, ih, digitCharJ_digit]

/-- Zero-padding a digit string yields a digit string. -/
theorem padLeftZ_all (w : Nat) (s : Chars) (h : s.all isDigitC = true) :
    (padLeftZ w s).all isDigitC = true := by
  rw [padLeftZ, List.all_append, h, Bool.and_true, List.all_eq_true]
  intro c hc
  rw [List.eq_of_mem_replicate hc]
  rfl

/-- `pad4` yields only digit characters. -/
theorem pad4_all (n : Nat) : (pad4 n).all isDigitC = true :=
  padLeftZ_all _ _ (natDigitsGo_all _ _)

/-- `pad2` yields only digit characters. -/
theorem pad2_all (n : Nat) : (pad2 n).all isDigitC = true :=
  padLeftZ_all _ _ (natDigitsGo_all _ _)

/-- A digit character is not a colon. -/
theorem ne_colon_of_digit {c : Char} (h : isDigitC c = true) : c ≠ ':' := by
  intro he
  subst he
  exact absurd h (by decide)

/-- No character of a digit string is a colon. -/
theorem all_ne_colon {s : Chars} (h : s.all isDigitC = true) : ∀ c ∈ s, c ≠ ':' :=
  fun c hc => ne_colon_of_digit (List.all_eq_true.mp h c hc)

/-- Colon-freedom extends over append. -/
theorem noColon_append {A B : Chars} (hA : ∀ c ∈ A, c ≠ ':') (hB : ∀ c ∈ B, c ≠ ':') :
    ∀ c ∈ A ++ B, c ≠ ':' := by
  intro c hc
  rcases List.mem_append.mp hc with h | h
  · exact hA c h
  · exact hB c h

/-- Colon-freedom extends over cons. -/
theorem noColon_cons {x : Char} {B : Chars} (hx : x ≠ ':') (hB : ∀ c ∈ B, c ≠ ':') :
    ∀ c ∈ x :: B, c ≠ ':' := by
  intro c hc
  rcases List.mem_cons.mp hc with h | h
  · exact h ▸ hx
  · exact hB c h

/-- The empty string is colon-free. -/
theorem noColon_nil : ∀ c ∈ ([] : Chars), c ≠ ':' :=
  fun c hc => absurd hc (List.not_mem_nil c)

/-- `%Y` on a natural-number year is plain 4-digit zero-padding. -/
theorem formatYear_ofNat (y : Nat) : formatYear (y : Int) = pad4 y := by
  unfold formatYear
  rw [if_neg (not_lt.mpr (Int.ofNat_nonneg y))]
  simp

/-- C7: with the default exclude patterns and an empty include list,
`is_excluded` is true for "node_modules/x.js" and "_site/index.html" and
false for "_posts/hello.md"; and any path matched by an include pattern
(in particular one also matched by an exclude pattern) is not excluded. -/
theorem claim_C7 :
    (isExcluded configDefault (strL "node_modules/x.js") = true ∧
      isExcluded configDefault (strL "_site/index.html") = true ∧
      isExcluded configDefault (strL "_posts/hello.md") = false) ∧
    (∀ (cfg : Config) (path pin pex : Chars),
      pin ∈ cfg.includes → containsSub path pin = true →
      pex ∈ cfg.exclude → containsSub path pex = true →
      isExcluded cfg path = false) := by
  constructor
  · exact ⟨by decide, by decide, by decide⟩
  · intro cfg path pin pex hin hcin _ _
    unfold isExcluded
    rw [if_pos (List.any_eq_true.mpr ⟨pin, hin, hcin⟩)]

/-- Witness for C7's include-wins clause: the pattern "keep" is both an
include and an exclude pattern and matches the path, and the path is not
excluded. -/
theorem claim_C7_witness :
    isExcluded { configDefault with exclude := [strL "keep"], includes := [strL "keep"] }
      (strL "keep/x.md") = false :=
  claim_C7.2 { configDefault with exclude := [strL "keep"], includes := [strL "keep"] }
    (strL "keep/x.md") (strL "keep") (strL "keep")
    (by decide) (by decide) (by decide) (by decide)

/-- C8: a poll of the reload endpoint when the flag is set returns
"reload" and clears the flag in that same handler invocation; a second
immediate poll (no intervening flag-set) returns "ok".  When the flag is
clear a poll returns "ok" and leaves it clear. -/
theorem claim_C8 (flag : Bool) :
    reloadStatus flag = (if flag then strL "reload" else strL "ok", false) ∧
    (reloadStatus (reloadStatus flag).2).1 = strL "ok" := by
  cases flag <;> exact ⟨rfl, rfl⟩

/-- C9: an event with any path canonicalizing under the destination is
discarded, an event whose kind is not create/modify/remove is discarded,
and a discarded event sends nothing on the channel that advances the
debounce state machine. -/
theorem claim_C9 (canon : FsPath → FsPath) (event : FsEvent) (destination : FsPath) :
    ((∃ p ∈ event.paths, leadsWith destination (canon p) = true) →
      shouldTriggerRebuild canon event destination = false) ∧
    ((event.kind = .any ∨ event.kind = .access ∨ event.kind = .other) →
      shouldTriggerRebuild canon event destination = false) ∧
    (shouldTriggerRebuild canon event destination = false →
      watcherCallbackSends canon destination event = []) := by
  refine ⟨?_, ?_, ?_⟩
  · intro ⟨p, hp, hlead⟩
    have hany : (event.paths.any fun path => leadsWith destination (canon path)) = true :=
      List.any_eq_true.mpr ⟨p, hp, hlead⟩
    unfold shouldTriggerRebuild
    simp [hany]
  · intro hk
    unfold shouldTriggerRebuild
    by_cases hany : (event.paths.any fun path => leadsWith destination (canon path)) = true
    · simp [hany]
    · rcases hk with hk | hk | hk <;> simp [hany, hk]
  · intro h
    unfold watcherCallbackSends
    simp [h]

/-- Witness for C9: an access event on a file under the destination
directory is discarded and sends nothing. -/
theorem claim_C9_witness :
    shouldTriggerRebuild id
      ⟨.access, [[strL "home", strL "site", strL "index.html"]]⟩
      [strL "home", strL "site"] = false ∧
    watcherCallbackSends id [strL "home", strL "site"]
      ⟨.access, [[strL "home", strL "site", strL "index.html"]]⟩ = [] := by
  have h := claim_C9 id ⟨.access, [[strL "home", strL "site", strL "index.html"]]⟩
    [strL "home", strL "site"]
  have h1 := h.1 ⟨[strL "home", strL "site", strL "index.html"], by decide, by decide⟩
  exact ⟨h1, h.2.2 h1⟩

/-- C2 (amended): every dev-server rebuild cycle reuses the `Config`
captured when the handler task was spawned at server start; the config
file on disk is not re-read, whatever it contains at rebuild time. -/
theorem claim_C2 (st : DevServerState) (disks : List Config) :
    devServerRunConfigs st disks = disks.map (fun _ => st.config) ∧
    ∀ disk : Config, handleFileChangesCycle st disk = (true, st.config) :=
  ⟨rfl, fun _ => rfl⟩

/-- Counterexample to C2 as stated: with the server started on the default
config and the on-disk config then edited to title "New", the rebuild
cycle builds with the captured default config, not the edited one. -/
theorem claim_C2_counterexample :
    (handleFileChangesCycle ⟨strL ".", strL "_site", configDefault, false⟩
        { configDefault with title := strL "New" }).2 = configDefault ∧
    (handleFileChangesCycle ⟨strL ".", strL "_site", configDefault, false⟩
        { configDefault with title := strL "New" }).2 ≠
      { configDefault with title := strL "New" } :=
  ⟨rfl, by decide⟩

/-- C10: for every post with no front-matter permalink whose filename stem
has fewer than 4 dash-separated segments, the `:title` token is replaced
with the empty string, so the default permalink pattern yields
`/YYYY/MM/DD//` — a URL with an empty trailing path segment. -/
theorem claim_C10 (y m d : Nat) (fm : FrontMatter) (stem : Chars)
    (hperm : fm.permalink = none)
    (hstem : (splitDash stem).length < 4) :
    generatePostUrl configDefault fm ⟨(y : Int), m, d⟩ (some stem) =
      ('/' :: pad4 y) ++ (('/' :: pad2 m) ++ (('/' :: pad2 d) ++ strL "//")) := by
  have htitle : joinDash ((splitDash stem).drop 3) = [] := by
    rw [List.drop_eq_nil_of_le (by omega)]
    rfl
  have hgen : generatePostUrl configDefault fm ⟨(y : Int), m, d⟩ (some stem) =
      postUrlFromPattern configDefault ⟨(y : Int), m, d⟩ (some stem) := by
    unfold generatePostUrl
    rw [hperm]
  rw [hgen]
  rw [show postUrlFromPattern configDefault ⟨(y : Int), m, d⟩ (some stem) =
      replaceL (strL ":title") (joinDash ((splitDash stem).drop 3))
        (replaceL (strL ":day") (pad2 d)
          (replaceL (strL ":month") (pad2 m)
            (replaceL (strL ":year") (formatYear (y : Int)) configDefault.permalink)))
      from rfl]
  rw [htitle, formatYear_ofNat]
  rw [show configDefault.permalink =
      ['/'] ++ ((':' :: strL "year") ++ strL "/:month/:day/:title/") from by decide]
  rw [show strL ":year" = ':' :: strL "year" from by decide]
  rw [replaceL_once ':' (strL "year") (pad4 y) ['/'] (strL "/:month/:day/:title/")
    (noColon_cons (by decide) noColon_nil) (by decide)]
  rw [show strL ":month" = ':' :: strL "month" from by decide]
  rw [show ['/'] ++ (pad4 y ++ strL "/:month/:day/:title/") =
      ('/' :: pad4 y ++ ['/']) ++ ((':' :: strL "month") ++ strL "/:day/:title/") from by
    rw [show strL "/:month/:day/:title/" =
      ['/'] ++ ((':' :: strL "month") ++ strL "/:day/:title/") from by decide]
    simp [List.append_assoc]]
  rw [replaceL_once ':' (strL "month") (pad2 m) ('/' :: pad4 y ++ ['/'])
    (strL "/:day/:title/")
    (noColon_cons (by decide)
      (noColon_append (all_ne_colon (pad4_all y)) (noColon_cons (by decide) noColon_nil)))
    (by decide)]
  rw [show strL ":day" = ':' :: strL "day" from by decide]
  rw [show ('/' :: pad4 y ++ ['/']) ++ (pad2 m ++ strL "/:day/:title/") =
      ('/' :: pad4 y ++ ('/' :: pad2 m ++ ['/'])) ++
        ((':' :: strL "day") ++ strL "/:title/") from by
    rw [show strL "/:day/:title/" =
      ['/'] ++ ((':' :: strL "day") ++ strL "/:title/") from by decide]
    simp [List.append_assoc]]
  rw [replaceL_once ':' (strL "day") (pad2 d)
    ('/' :: pad4 y ++ ('/' :: pad2 m ++ ['/'])) (strL "/:title/")
    (noColon_cons (by decide)
      (noColon_append (all_ne_colon (pad4_all y))
        (noColon_cons (by decide)
          (noColon_append (all_ne_colon (pad2_all m))
            (noColon_cons (by decide) noColon_nil)))))
    (by decide)]
  rw [show strL ":title" = ':' :: strL "title" from by decide]
  rw [show ('/' :: pad4 y ++ ('/' :: pad2 m ++ ['/'])) ++ (pad2 d ++ strL "/:title/") =
      ('/' :: pad4 y ++ ('/' :: pad2 m ++ ('/' :: pad2 d ++ ['/']))) ++
        ((':' :: strL "title") ++ ['/']) from by
    rw [show strL "/:title/" = ['/'] ++ ((':' :: strL "title") ++ ['/']) from by decide]
    simp [List.append_assoc]]
  rw [replaceL_once ':' (strL "title") []
    ('/' :: pad4 y ++ ('/' :: pad2 m ++ ('/' :: pad2 d ++ ['/']))) ['/']
    (noColon_cons (by decide)
      (noColon_append (all_ne_colon (pad4_all y))
        (noColon_cons (by decide)
          (noColon_append (all_ne_colon (pad2_all m))
            (noColon_cons (by decide)
              (noColon_append (all_ne_colon (pad2_all d))
                (noColon_cons (by decide) noColon_nil)))))))
    (by decide)]
  rw [show strL "//" = ['/', '/'] from by decide]
  simp [List.append_assoc]

/-- Witness for C10: the post `hello.md` (stem with a single segment) with
no permalink override, dated 2024-03-07, gets the URL `/2024/03/07//`. -/
theorem claim_C10_witness :
    generatePostUrl configDefault fmDefault ⟨2024, 3, 7⟩ (some (strL "hello")) =
      strL "/2024/03/07//" :=
  (claim_C10 2024 3 7 fmDefault (strL "hello") rfl (by decide)).trans (by decide)

/-- Every post the collection pass emits is published: the `published ==
false` check drops a post before it is built. -/
theorem processPosts_published (render : Chars → Chars)
    (parseYaml : Chars → Option FrontMatter) (now : DateT) (cfg : Config) :
    ∀ (files : List FileEntry) (posts : List Post),
      processPosts render parseYaml now cfg files = .ok posts →
      ∀ p ∈ posts, p.frontMatter.published = true := by
  intro files
  induction files with
  | nil =>
    intro posts h p hp
    simp [processPosts] at h
    subst h
    exact absurd hp (List.not_mem_nil p)
  | cons f rest ih =>
    intro posts h p hp
    unfold processPosts at h
    by_cases hmd : isMarkdownName f.name = true
    · rw [if_pos hmd] at h
      rcases hfm : parseFrontMatter parseYaml f.content with e | ⟨fm, body⟩
      · rw [hfm] at h
        simp at h
      · rw [hfm] at h
        by_cases hpub : fm.published = true
        · rcases hrec : processPosts render parseYaml now cfg rest with e | posts'
          · rw [hrec] at h
            simp [hpub, Except.map] at h
          · rw [hrec] at h
            simp [hpub, Except.map] at h
            subst h
            rcases List.mem_cons.mp hp with hpe | hpm
            · rw [hpe]
              exact hpub
            · exact ih posts' hrec p hpm
        · simp [hpub] at h
          exact ih posts h p hp
    · rw [if_neg hmd] at h
      exact ih posts h p hp

/-- C4: a post whose front matter sets `published: false` is dropped
before sorting and never appears in the assembled site's post list,
whatever its date and whether it came from the posts or the drafts
directory — equivalently, every post of the assembled list is published. -/
theorem claim_C4 (render : Chars → Chars) (parseYaml : Chars → Option FrontMatter)
    (now : DateT) (cfg : Config) (postFiles draftFiles : List FileEntry)
    (includeDrafts : Bool) (posts : List Post)
    (h : siteBuildPosts render parseYaml now cfg postFiles draftFiles includeDrafts =
      .ok posts) :
    ∀ p ∈ posts, p.frontMatter.published = true := by
  unfold siteBuildPosts at h
  rcases h1 : processPosts render parseYaml now cfg postFiles with e | posts1
  · rw [h1] at h
    simp [Bind.bind, Except.bind] at h
  · rw [h1] at h
    cases includeDrafts with
    | false =>
      simp [Bind.bind, Except.bind, Pure.pure, Except.pure] at h
      intro p hp
      rw [← h] at hp
      have hmem : p ∈ posts1 := (List.perm_insertionSort postsGe posts1).subset hp
      exact processPosts_published render parseYaml now cfg postFiles posts1 h1 p hmem
    | true =>
      rcases h2 : processPosts render parseYaml now cfg draftFiles with e | drafts
      · rw [h2] at h
        simp [Bind.bind, Except.bind] at h
      · rw [h2] at h
        simp [Bind.bind, Except.bind, Pure.pure, Except.pure] at h
        intro p hp
        rw [← h] at hp
        have hmem : p ∈ posts1 ++ drafts :=
          (List.perm_insertionSort postsGe (posts1 ++ drafts)).subset hp
        rcases List.mem_append.mp hmem with hm | hm
        · exact processPosts_published render parseYaml now cfg postFiles posts1 h1 p hm
        · exact processPosts_published render parseYaml now cfg draftFiles drafts h2 p hm

/-- Witness for C4: a posts directory with a published and an unpublished
post assembles successfully, and every assembled post is published. -/
theorem claim_C4_witness :
    ∃ posts,
      siteBuildPosts (fun b => b)
        (fun y => if y = strL "\npublished: false" then
          some { fmDefault with published := false } else some fmDefault)
        ⟨2025, 1, 1⟩ configDefault
        [⟨strL "2024-01-01-alpha.md", []⟩,
          ⟨strL "2024-02-02-secret.md", strL "---\npublished: false\n---\nsecret"⟩]
        [] false = .ok posts ∧
      ∀ p ∈ posts, p.frontMatter.published = true :=
  ⟨_, rfl, claim_C4 (fun b => b)
    (fun y => if y = strL "\npublished: false" then
      some { fmDefault with published := false } else some fmDefault)
    ⟨2025, 1, 1⟩ configDefault
    [⟨strL "2024-01-01-alpha.md", []⟩,
      ⟨strL "2024-02-02-secret.md", strL "---\npublished: false\n---\nsecret"⟩]
    [] false _ rfl⟩

/-- C5: every assembled post list (drafts included when enabled) is sorted
by date descending, and the concrete example of posts dated 2024-01-01,
2024-03-01, 2024-02-01 assembles in the order 2024-03-01, 2024-02-01,
2024-01-01. -/
theorem claim_C5 :
    (∀ (render : Chars → Chars) (parseYaml : Chars → Option FrontMatter)
      (now : DateT) (cfg : Config) (postFiles draftFiles : List FileEntry)
      (includeDrafts : Bool) (posts : List Post),
      siteBuildPosts render parseYaml now cfg postFiles draftFiles includeDrafts =
        .ok posts →
      List.Pairwise postsGe posts) ∧
    (siteBuildPosts (fun b => b) (fun _ => none) ⟨2025, 1, 1⟩ configDefault
        [⟨strL "2024-01-01-alpha.md", []⟩, ⟨strL "2024-03-01-beta.md", []⟩,
          ⟨strL "2024-02-01-gamma.md", []⟩] [] false).map (fun ps => ps.map Post.date) =
      .ok [⟨2024, 3, 1⟩, ⟨2024, 2, 1⟩, ⟨2024, 1, 1⟩] := by
  constructor
  · intro render parseYaml now cfg postFiles draftFiles includeDrafts posts h
    unfold siteBuildPosts at h
    rcases h1 : processPosts render parseYaml now cfg postFiles with e | posts1
    · rw [h1] at h
      simp [Bind.bind, Except.bind] at h
    · rw [h1] at h
      cases includeDrafts with
      | false =>
        simp [Bind.bind, Except.bind, Pure.pure, Except.pure] at h
        rw [← h]
        exact List.sorted_insertionSort postsGe posts1
      | true =>
        rcases h2 : processPosts render parseYaml now cfg draftFiles with e | drafts
        · rw [h2] at h
          simp [Bind.bind, Except.bind] at h
        · rw [h2] at h
          simp [Bind.bind, Except.bind, Pure.pure, Except.pure] at h
          rw [← h]
          exact List.sorted_insertionSort postsGe (posts1 ++ drafts)
  · rfl

/-- Witness for C5's universal clause at the concrete three-post input:
the assembled list exists and is pairwise descending by date. -/
theorem claim_C5_witness :
    ∃ posts,
      siteBuildPosts (fun b => b) (fun _ => none) ⟨2025, 1, 1⟩ configDefault
        [⟨strL "2024-01-01-alpha.md", []⟩, ⟨strL "2024-03-01-beta.md", []⟩,
          ⟨strL "2024-02-01-gamma.md", []⟩] [] false = .ok posts ∧
      List.Pairwise postsGe posts :=
  ⟨_, rfl, claim_C5.1 (fun b => b) (fun _ => none) ⟨2025, 1, 1⟩ configDefault
    [⟨strL "2024-01-01-alpha.md", []⟩, ⟨strL "2024-03-01-beta.md", []⟩,
      ⟨strL "2024-02-01-gamma.md", []⟩] [] false _ rfl⟩

/-- One resolution step from layout `a` of the cycle: `a` is found, its
parent is `b`, and the loop continues with the rendered output. -/
theorem renderStepA (renderT : Chars → Chars → Chars) (f : Nat) (content : Chars) :
    renderWithLayout cycleLayouts cycleParse renderT (f + 1) content (strL "a") =
      renderWithLayout cycleLayouts cycleParse renderT f
        (renderT (extractTemplateContent layoutA) content) (strL "b") := rfl

/-- One resolution step from layout `b` of the cycle: `b` is found, its
parent is `a`, and the loop continues with the rendered output. -/
theorem renderStepB (renderT : Chars → Chars → Chars) (f : Nat) (content : Chars) :
    renderWithLayout cycleLayouts cycleParse renderT (f + 1) content (strL "b") =
      renderWithLayout cycleLayouts cycleParse renderT f
        (renderT (extractTemplateContent layoutB) content) (strL "a") := rfl

/-- Starting from either layout of the cycle, resolution exhausts any
finite fuel: the source recursion never returns. -/
theorem renderWithLayout_cycle_aux (renderT : Chars → Chars → Chars) :
    ∀ (fuel : Nat) (content : Chars),
      renderWithLayout cycleLayouts cycleParse renderT fuel content (strL "a") = none ∧
      renderWithLayout cycleLayouts cycleParse renderT fuel content (strL "b") = none := by
  intro fuel
  induction fuel with
  | zero => exact fun content => ⟨rfl, rfl⟩
  | succ f ih =>
    intro content
    constructor
    · rw [renderStepA]
      exact (ih _).2
    · rw [renderStepB]
      exact (ih _).1

/-- C1: the code does NOT guard the parent-layout chain.  On the cyclic
layout pair (`a`'s parent is `b`, `b`'s parent is `a`) resolution never
terminates: for every recursion-depth bound, and whatever the liquid
renderer returns at each step, the fuel-indexed model of
`render_with_layout` exhausts its fuel instead of producing a result — in
particular it never fails with a cycle error (no such error exists in the
code). -/
theorem claim_C1 (renderT : Chars → Chars → Chars) (fuel : Nat) (content : Chars) :
    renderWithLayout cycleLayouts cycleParse renderT fuel content (strL "a") = none :=
  (renderWithLayout_cycle_aux renderT fuel content).1

end JellRust
